import Mathlib

/-!
Verification development for the session run coordinator of the openclaw
repository: the followup queue (enqueue, dedupe, cap/drop policy, drain and
collect-mode merging), the durable session store (cached load, atomic save),
session staleness and heartbeat timestamp handling, and the gateway's
idempotent submit path.  Every definition is a shallow embedding of the
corresponding TypeScript function; timestamps are naturals (milliseconds),
JavaScript maps are association lists, and the filesystem / clock are passed
in explicitly.
-/

namespace Spec2Proof

/-! ## Association-list maps (the embedding of JS `Map` objects) -/

def lookupA {α : Type} (m : List (String × α)) (k : String) : Option α :=
  (m.find? (fun kv => kv.1 == k)).map (·.2)

def setA {α : Type} : List (String × α) → String → α → List (String × α)
  | [], k, v => [(k, v)]
  | (k', v') :: rest, k, v =>
    if k' == k then (k, v) :: rest else (k', v') :: setA rest k v

def eraseA {α : Type} : List (String × α) → String → List (String × α)
  | [], _ => []
  | (k', v') :: rest, k =>
    if k' == k then rest else (k', v') :: eraseA rest k

/-! ## String helpers shared by the queue code

`collapseWs` embeds `replace(/\s+/g, " ")`, `trimRightStr` embeds
`String.prototype.trimEnd`, `strFalsy` embeds JavaScript falsiness of an
optional string (undefined or the empty string). -/

def trimRightStr (s : String) : String :=
  ⟨(s.data.reverse.dropWhile Char.isWhitespace).reverse⟩

def collapseWsGo : Bool → List Char → List Char
  | _, [] => []
  | inWs, c :: rest =>
    if c.isWhitespace then
      if inWs then collapseWsGo true rest else ' ' :: collapseWsGo true rest
    else c :: collapseWsGo false rest

def collapseWs (s : String) : String := ⟨collapseWsGo false s.data⟩

def trimLeftStr (s : String) : String :=
  ⟨s.data.dropWhile Char.isWhitespace⟩

/-- The embedding of `String.prototype.trim`. -/
def trimStr (s : String) : String := trimRightStr (trimLeftStr s)

/-- The embedding of `Array.prototype.join(sep)`. -/
def joinSep (sep : String) : List String → String
  | [] => ""
  | [x] => x
  | x :: y :: rest => x ++ sep ++ joinSep sep (y :: rest)

def strFalsy : Option String → Bool
  | none => true
  | some s => s.isEmpty

/-! ## Queue data model (src/unnamed/part_004) -/

inductive QueueMode
  | steer
  | followup
  | collect
  | steerBacklog
  | interrupt
  | queue
deriving Repr, DecidableEq, Inhabited

inductive QueueDropPolicy
  | old
  | new
  | summarize
deriving Repr, DecidableEq, Inhabited

structure QueueSettings where
  mode : QueueMode
  debounceMs : Option Int := none
  cap : Option Int := none
  dropPolicy : Option QueueDropPolicy := none
deriving Repr, DecidableEq, Inhabited

inductive QueueDedupeMode
  | messageId
  | prompt
  | none
deriving Repr, DecidableEq, Inhabited

/-- The `run` payload of a `FollowupRun`: the run parameters resolved at
schedule time.  The queue logic never reads these fields, it only copies the
record around, so the large config/skills sub-objects are elided and the
scalar identifying fields kept. -/
structure RunParams where
  agentId : String := ""
  agentDir : String := ""
  sessionId : String := ""
  sessionKey : Option String := Option.none
  sessionFile : String := ""
  workspaceDir : String := ""
  provider : String := ""
  model : String := ""
  timeoutMs : Nat := 0
deriving Repr, DecidableEq, Inhabited

structure FollowupRun where
  prompt : String
  messageId : Option String := Option.none
  summaryLine : Option String := Option.none
  enqueuedAt : Nat := 0
  originatingChannel : Option String := Option.none
  originatingTo : Option String := Option.none
  originatingAccountId : Option String := Option.none
  originatingThreadId : Option Int := Option.none
  run : RunParams := {}
deriving Repr, DecidableEq, Inhabited

structure FollowupQueueState where
  items : List FollowupRun := []
  draining : Bool := false
  lastEnqueuedAt : Nat := 0
  mode : QueueMode := QueueMode.collect
  debounceMs : Nat := 1000
  cap : Nat := 20
  dropPolicy : QueueDropPolicy := QueueDropPolicy.summarize
  droppedCount : Nat := 0
  summaryLines : List String := []
  lastRun : Option RunParams := Option.none
deriving Repr, DecidableEq, Inhabited

def DEFAULT_QUEUE_DEBOUNCE_MS : Nat := 1000
def DEFAULT_QUEUE_CAP : Nat := 20
def DEFAULT_QUEUE_DROP : QueueDropPolicy := QueueDropPolicy.summarize

/-- The registry `FOLLOWUP_QUEUES`, keyed by session key. -/
abbrev QueueMap := List (String × FollowupQueueState)

/-- `elideText(text, limit)`. -/
def elideText (text : String) (limit : Nat := 140) : String :=
  if text.length ≤ limit then text
  else trimRightStr ⟨text.data.take (limit - 1)⟩ ++ "…"

/-- `buildQueueSummaryLine(run)`: summaryLine (trimmed, when truthy) or the
trimmed prompt, whitespace-collapsed, elided to 160 characters. -/
def buildQueueSummaryLine (run : FollowupRun) : String :=
  let base :=
    match run.summaryLine.map trimStr with
    | Option.some s => if s.isEmpty then trimStr run.prompt else s
    | Option.none => trimStr run.prompt
  elideText (trimStr (collapseWs base)) 160

/-- The mutation `getFollowupQueue` applies to an existing queue state:
mode always taken from the settings, debounce/cap/drop only when supplied
(cap only when positive). -/
def applyQueueSettings (q : FollowupQueueState) (s : QueueSettings) :
    FollowupQueueState :=
  { q with
    mode := s.mode
    debounceMs :=
      match s.debounceMs with
      | Option.some d => (max 0 d).toNat
      | Option.none => q.debounceMs
    cap :=
      match s.cap with
      | Option.some c => if c > 0 then c.toNat else q.cap
      | Option.none => q.cap
    dropPolicy := s.dropPolicy.getD q.dropPolicy }

/-- The fresh state `getFollowupQueue` creates on first use of a key. -/
def freshQueueState (s : QueueSettings) : FollowupQueueState :=
  { items := []
    draining := false
    lastEnqueuedAt := 0
    mode := s.mode
    debounceMs :=
      match s.debounceMs with
      | Option.some d => (max 0 d).toNat
      | Option.none => DEFAULT_QUEUE_DEBOUNCE_MS
    cap :=
      match s.cap with
      | Option.some c => if c > 0 then c.toNat else DEFAULT_QUEUE_CAP
      | Option.none => DEFAULT_QUEUE_CAP
    dropPolicy := s.dropPolicy.getD DEFAULT_QUEUE_DROP
    droppedCount := 0
    summaryLines := []
    lastRun := Option.none }

/-- `getFollowupQueue(key, settings)`: returns the (settings-refreshed or
fresh) state together with the updated registry. -/
def getFollowupQueue (m : QueueMap) (key : String) (s : QueueSettings) :
    FollowupQueueState × QueueMap :=
  match lookupA m key with
  | Option.some q =>
    let q' := applyQueueSettings q s
    (q', setA m key q')
  | Option.none =>
    let q := freshQueueState s
    (q, setA m key q)

/-- The routing comparison inside `isRunAlreadyQueued`. -/
def sameRouting (run item : FollowupRun) : Bool :=
  item.originatingChannel == run.originatingChannel &&
  item.originatingTo == run.originatingTo &&
  item.originatingAccountId == run.originatingAccountId &&
  item.originatingThreadId == run.originatingThreadId

/-- `isRunAlreadyQueued(run, queue, allowPromptFallback)`: dedupe on trimmed
message id (when truthy) with identical routing, else — only with the prompt
fallback enabled — on exact prompt with identical routing. -/
def isRunAlreadyQueued (run : FollowupRun) (queue : FollowupQueueState)
    (allowPromptFallback : Bool := false) : Bool :=
  let promptMatch :=
    allowPromptFallback &&
      queue.items.any (fun item =>
        item.prompt == run.prompt && sameRouting run item)
  match run.messageId.map trimStr with
  | Option.some m =>
    if m.isEmpty then promptMatch
    else
      queue.items.any (fun item =>
        item.messageId.map trimStr == Option.some m && sameRouting run item)
  | Option.none => promptMatch

/-- `enqueueFollowupRun` after the dedupe gate: stamps `lastEnqueuedAt` and
`lastRun`, applies the drop policy when the queue is at cap, then appends. -/
def enqueueCore (queue : FollowupQueueState) (run : FollowupRun) (now : Nat) :
    Bool × FollowupQueueState :=
  let q := { queue with lastEnqueuedAt := now, lastRun := Option.some run.run }
  if q.cap > 0 && q.items.length ≥ q.cap then
    if q.dropPolicy == QueueDropPolicy.new then (false, q)
    else
      let dropCount := q.items.length - q.cap + 1
      let dropped := q.items.take dropCount
      let kept := q.items.drop dropCount
      let q2 :=
        if q.dropPolicy == QueueDropPolicy.summarize then
          let sl := q.summaryLines ++ dropped.map buildQueueSummaryLine
          { q with
            items := kept
            droppedCount := q.droppedCount + dropped.length
            summaryLines := sl.drop (sl.length - q.cap) }
        else { q with items := kept }
      (true, { q2 with items := q2.items ++ [run] })
  else (true, { q with items := q.items ++ [run] })

/-- `enqueueFollowupRun(key, run, settings, dedupeMode)` at time `now`:
returns whether the run was appended, together with the updated registry. -/
def enqueueFollowupRun (m : QueueMap) (key : String) (run : FollowupRun)
    (settings : QueueSettings)
    (dedupeMode : QueueDedupeMode := QueueDedupeMode.messageId) (now : Nat) :
    Bool × QueueMap :=
  let (queue, m1) := getFollowupQueue m key settings
  let deduped :=
    dedupeMode != QueueDedupeMode.none &&
      ((dedupeMode == QueueDedupeMode.messageId &&
          isRunAlreadyQueued run queue false) ||
        (dedupeMode == QueueDedupeMode.prompt &&
          isRunAlreadyQueued run queue true))
  if deduped then (false, m1)
  else
    let (ok, q') := enqueueCore queue run now
    (ok, setA m1 key q')

/-! ## Drain machinery (src/unnamed/part_004, `scheduleFollowupDrain`) -/

/-- `buildSummaryPrompt(queue)`: under the `summarize` policy with a positive
dropped count, the overflow text (count line, then the recorded summary
lines), resetting both accumulators; otherwise no prompt and no change. -/
def buildSummaryPrompt (q : FollowupQueueState) :
    Option String × FollowupQueueState :=
  if q.dropPolicy != QueueDropPolicy.summarize || q.droppedCount == 0 then
    (Option.none, q)
  else
    let header :=
      "[Queue overflow] Dropped " ++ toString q.droppedCount ++ " message" ++
        (if q.droppedCount == 1 then "" else "s") ++ " due to cap."
    let lines :=
      if q.summaryLines.isEmpty then [header]
      else header :: "Summary:" :: q.summaryLines.map (fun l => "- " ++ l)
    (Option.some (joinSep "\n" lines),
      { q with droppedCount := 0, summaryLines := [] })

/-- `buildCollectPrompt(items, summary)`. -/
def buildCollectPrompt (items : List FollowupRun) (summary : Option String) :
    String :=
  let blocks := ["[Queued messages while agent was busy]"] ++
    (match summary with
     | Option.some s => [s]
     | Option.none => []) ++
    items.enum.map (fun p =>
      trimStr ("---\nQueued #" ++ toString (p.1 + 1) ++ "\n" ++ p.2.prompt))
  joinSep "\n\n" blocks

/-- The loop body of `hasCrossChannelItems`: `keys` plays the `Set` of route
keys, `hasUnkeyed` the flag for items with no routing fields at all.
`isRoutable` stands for the external `isRoutableChannel` predicate. -/
def hasCrossChannelItemsGo (isRoutable : Option String → Bool) :
    List FollowupRun → List String → Bool → Bool
  | [], keys, hasUnkeyed =>
    if keys.length == 0 then false
    else if hasUnkeyed then true
    else decide (keys.length > 1)
  | item :: rest, keys, hasUnkeyed =>
    if strFalsy item.originatingChannel && strFalsy item.originatingTo &&
        strFalsy item.originatingAccountId &&
        item.originatingThreadId == Option.none then
      hasCrossChannelItemsGo isRoutable rest keys true
    else if !isRoutable item.originatingChannel ||
        strFalsy item.originatingTo then true
    else
      let k := joinSep "|"
        [item.originatingChannel.getD "", item.originatingTo.getD "",
          item.originatingAccountId.getD "",
          match item.originatingThreadId with
          | Option.some t => toString t
          | Option.none => ""]
      hasCrossChannelItemsGo isRoutable rest
        (if keys.contains k then keys else k :: keys) hasUnkeyed

/-- `hasCrossChannelItems(items)`: true when the queued items span more than
one originating route, or mix routable and non-routable (or unkeyed and
keyed) routes. -/
def hasCrossChannelItems (isRoutable : Option String → Bool)
    (items : List FollowupRun) : Bool :=
  hasCrossChannelItemsGo isRoutable items [] false

/-- The synthesized call the collect branch issues for a same-route batch. -/
def collectCall (items : List FollowupRun) (summary : Option String)
    (rp : RunParams) (now : Nat) : FollowupRun :=
  { prompt := buildCollectPrompt items summary
    run := rp
    enqueuedAt := now
    originatingChannel :=
      (items.find? (fun i => !strFalsy i.originatingChannel)).bind
        (·.originatingChannel)
    originatingTo :=
      (items.find? (fun i => !strFalsy i.originatingTo)).bind (·.originatingTo)
    originatingAccountId :=
      (items.find? (fun i => !strFalsy i.originatingAccountId)).bind
        (·.originatingAccountId)
    originatingThreadId :=
      (items.find? (fun i => i.originatingThreadId.isSome)).bind
        (·.originatingThreadId) }

/-- The `while` loop of `scheduleFollowupDrain`, fuelled: returns the list of
`runFollowup` calls in order together with the state at loop exit, or
`none` when the fuel is exhausted (the source loop can in principle spin
forever when a dropped count survives under a non-summarize policy). The
debounce wait suspends but does not change state, so it has no effect here;
`now` stands for `Date.now()` at synthesis points. -/
def drainLoop (isRoutable : Option String → Bool) (now : Nat) :
    Nat → FollowupQueueState → Bool →
    Option (List FollowupRun × FollowupQueueState)
  | 0, _, _ => Option.none
  | fuel + 1, q, forceIndividualCollect =>
    if q.items.length == 0 && q.droppedCount == 0 then Option.some ([], q)
    else if q.mode == QueueMode.collect then
      if forceIndividualCollect then
        match q.items with
        | [] => Option.some ([], q)
        | next :: rest =>
          (drainLoop isRoutable now fuel { q with items := rest } true).map
            (fun r => (next :: r.1, r.2))
      else if hasCrossChannelItems isRoutable q.items then
        match q.items with
        | [] => Option.some ([], q)
        | next :: rest =>
          (drainLoop isRoutable now fuel { q with items := rest } true).map
            (fun r => (next :: r.1, r.2))
      else
        let items := q.items
        let (summary, q2) := buildSummaryPrompt { q with items := [] }
        match (items.getLast?.map (·.run)).orElse (fun _ => q2.lastRun) with
        | Option.none => Option.some ([], q2)
        | Option.some rp =>
          (drainLoop isRoutable now fuel q2 forceIndividualCollect).map
            (fun r => (collectCall items summary rp now :: r.1, r.2))
    else
      let (summary, q1) := buildSummaryPrompt q
      match summary with
      | Option.some sp =>
        match q1.lastRun with
        | Option.none => Option.some ([], q1)
        | Option.some rp =>
          (drainLoop isRoutable now fuel q1 forceIndividualCollect).map
            (fun r =>
              ({ prompt := sp, run := rp, enqueuedAt := now } :: r.1, r.2))
      | Option.none =>
        match q1.items with
        | [] => Option.some ([], q1)
        | next :: rest =>
          (drainLoop isRoutable now fuel { q1 with items := rest }
              forceIndividualCollect).map
            (fun r => (next :: r.1, r.2))

/-- The finalization of one drain: what `scheduleFollowupDrain` does for a
key once the loop exits.  The triple is (calls issued, updated registry,
whether a new drain was scheduled because items or a drop-summary remain).
`none` when the registry has no state, the key is already draining (both
no-ops) — those return `some` with no calls — or the fuel ran out. -/
def scheduleFollowupDrain (isRoutable : Option String → Bool) (fuel now : Nat)
    (m : QueueMap) (key : String) :
    Option (List FollowupRun × QueueMap × Bool) :=
  match lookupA m key with
  | Option.none => Option.some ([], m, false)
  | Option.some q =>
    if q.draining then Option.some ([], m, false)
    else
      match drainLoop isRoutable now fuel { q with draining := true } false with
      | Option.none => Option.none
      | Option.some (calls, q') =>
        let q2 := { q' with draining := false }
        if q2.items.length == 0 && q2.droppedCount == 0 then
          Option.some (calls, eraseA m key, false)
        else Option.some (calls, setA m key q2, true)

/-! ## Session store (src/src/config/sessions.ts)

The persisted record: only the fields the modelled code reads or writes are
kept, the rest of `SessionEntry` is opaque payload to these functions. -/

structure SessionEntryL where
  sessionId : String
  updatedAt : Nat
  systemSent : Bool := false
  abortedLastRun : Bool := false
  thinkingLevel : Option String := Option.none
  verboseLevel : Option String := Option.none
  modelOverride : Option String := Option.none
  providerOverride : Option String := Option.none
deriving Repr, DecidableEq, Inhabited

abbrev SessStore := List (String × SessionEntryL)

structure SessionStoreCacheEntry where
  store : List (String × SessionEntryL)
  loadedAt : Nat
  storePath : String
  mtimeMs : Option Nat := Option.none
deriving Repr, DecidableEq, Inhabited

abbrev SessCache := List (String × SessionStoreCacheEntry)

/-- `isSessionStoreCacheValid(entry)` at time `now` with freshness window
`ttl` (`resolveCacheTtlMs` and the clock are external inputs here). -/
def isSessionStoreCacheValid (ttl now : Nat) (e : SessionStoreCacheEntry) :
    Bool :=
  now - e.loadedAt ≤ ttl

/-- `loadSessionStore(storePath)`: `fsMtime` is `getFileMtimeMs(storePath)`,
`fsParse` the parsed on-disk document (`none` for a missing or malformed
file).  Returns the mapping, the updated cache, and whether the cached
snapshot was returned. -/
def loadSessionStore (cacheEnabled : Bool) (ttl now : Nat) (cache : SessCache)
    (storePath : String) (fsMtime : Option Nat)
    (fsParse : Option (List (String × SessionEntryL))) :
    List (String × SessionEntryL) × SessCache × Bool :=
  let diskLoad := fun (cache0 : SessCache) =>
    let store := fsParse.getD []
    let cache1 :=
      if cacheEnabled then
        setA cache0 storePath
          { store := store, loadedAt := now, storePath := storePath
            mtimeMs := fsMtime }
      else cache0
    (store, cache1, false)
  if cacheEnabled then
    match lookupA cache storePath with
    | Option.some c =>
      if isSessionStoreCacheValid ttl now c then
        if fsMtime == c.mtimeMs then (c.store, cache, true)
        else diskLoad (eraseA cache storePath)
      else diskLoad cache
    | Option.none => diskLoad cache
  else diskLoad cache

/-! ### `saveSessionStore`: atomic write with one ENOENT retry

The filesystem is a map from path to full file content; each write or rename
lands atomically at this granularity, so the trace of contents visible at
`storePath` is exactly what a concurrent reader could observe.  The injected
`SaveOutcome` supplies the error code (or success) of each fallible step. -/

structure SaveOutcome where
  write1 : Option String := Option.none
  rename1 : Option String := Option.none
  write2 : Option String := Option.none
deriving Repr, DecidableEq, Inhabited

abbrev Fs := List (String × String)

/-- The temporary path `${storePath}.${pid}.${uuid}.tmp`. -/
def sessionTmpPath (storePath tag : String) : String :=
  storePath ++ "." ++ tag ++ ".tmp"

structure SaveResult where
  result : Except String Unit
  cache : SessCache
  fs : List (String × String)
  /-- Every filesystem state from entry to exit, in order. -/
  trace : List (List (String × String))

/-- `saveSessionStore(storePath, store)` with `json` the serialized mapping:
invalidate the cache entry, write the temp file, rename it over the target;
on ENOENT recreate the directory and retry with a direct write, swallowing a
second ENOENT; always remove the temp file at the end. -/
def saveSessionStore (cache : SessCache) (fs : List (String × String))
    (storePath tag json : String) (o : SaveOutcome) : SaveResult :=
  let cache1 := eraseA cache storePath
  let tmp := sessionTmpPath storePath tag
  -- try: writeFile(tmp, json) then rename(tmp, storePath)
  let afterTry :
      Except String Unit × List (String × String) ×
        List (List (String × String)) :=
    match o.write1 with
    | Option.some c => (Except.error c, fs, [fs])
    | Option.none =>
      let fs1 := setA fs tmp json
      match o.rename1 with
      | Option.some c => (Except.error c, fs1, [fs, fs1])
      | Option.none =>
        let fs2 := setA (eraseA fs1 tmp) storePath json
        (Except.ok (), fs2, [fs, fs1, fs2])
  let (res, fsCur, trace) := afterTry
  let handled :
      Except String Unit × List (String × String) ×
        List (List (String × String)) :=
    match res with
    | Except.ok _ => (Except.ok (), fsCur, trace)
    | Except.error code =>
      if code == "ENOENT" then
        -- mkdir again, then a direct write to the target
        match o.write2 with
        | Option.none =>
          let fs' := setA fsCur storePath json
          (Except.ok (), fs', trace ++ [fs'])
        | Option.some c2 =>
          if c2 == "ENOENT" then (Except.ok (), fsCur, trace)
          else (Except.error c2, fsCur, trace)
      else (Except.error code, fsCur, trace)
  let (res2, fs3, trace2) := handled
  -- finally: rm(tmp, force)
  let fsFin := eraseA fs3 tmp
  { result := res2, cache := cache1, fs := fsFin, trace := trace2 ++ [fsFin] }

/-! ## Session staleness and the heartbeat timestamp restore
(src/unnamed/part_003) -/

structure InitSessionResult where
  sessionId : String
  isNewSession : Bool
  systemSent : Bool
  abortedLastRun : Bool
deriving Repr, DecidableEq, Inhabited

/-- The session-identity decision inside `initSessionState`: an entry is
fresh when `now - entry.updatedAt <= idleMinutes * 60_000`; a stale (or
absent) entry, or an explicit reset, yields the freshly generated id
(`crypto.randomUUID()`, passed in as `freshId`) and session-new state. -/
def initSessionState (entry : Option SessionEntryL) (isNewSessionReq : Bool)
    (now idleMinutes : Nat) (freshId : String) : InitSessionResult :=
  let idleMs := idleMinutes * 60000
  let freshEntry :=
    match entry with
    | Option.some e => now - e.updatedAt ≤ idleMs
    | Option.none => false
  if !isNewSessionReq && freshEntry then
    match entry with
    | Option.some e =>
      { sessionId := e.sessionId, isNewSession := false
        systemSent := e.systemSent, abortedLastRun := e.abortedLastRun }
    | Option.none =>
      { sessionId := freshId, isNewSession := true
        systemSent := false, abortedLastRun := false }
  else
    { sessionId := freshId, isNewSession := true
      systemSent := false, abortedLastRun := false }

/-- The heartbeat skip branch: when the reply is a bare heartbeat
acknowledgement (`stripped.shouldSkip`) with no media, the store entry's
`updatedAt` is restored to the pre-run snapshot so heartbeats do not keep
sessions alive. -/
def restoreHeartbeatUpdatedAt (store : List (String × SessionEntryL))
    (key : String) (snapshotEntry : Option SessionEntryL) :
    List (String × SessionEntryL) :=
  match snapshotEntry, lookupA store key with
  | Option.some snap, Option.some cur =>
    setA store key { cur with updatedAt := snap.updatedAt }
  | _, _ => store

def heartbeatFinalizeStore (shouldSkip hasMedia : Bool)
    (store : List (String × SessionEntryL)) (key : String)
    (snapshotEntry : Option SessionEntryL) : List (String × SessionEntryL) :=
  if shouldSkip && !hasMedia then
    restoreHeartbeatUpdatedAt store key snapshotEntry
  else store

/-! ## Gateway idempotent submit (src/src/gateway/server-methods/agent.ts)

`context.dedupe` is the idempotency cache; `runId` is the idempotency key
itself.  A submit first consults the cache; a miss stores the `accepted`
payload synchronously before the executor (`agentCommand`) is started, and
the completion callbacks overwrite the entry with the final outcome. -/

inductive AgentPayload
  | accepted (runId : String) (acceptedAt : Nat)
  | done (runId : String) (ok : Bool) (summary : String)
deriving Repr, DecidableEq, Inhabited

structure DedupeEntry where
  ts : Nat
  ok : Bool
  payload : AgentPayload
deriving Repr, DecidableEq, Inhabited

structure GatewayState where
  dedupe : List (String × DedupeEntry) := []
  /-- The executor runs started so far (each `void agentCommand(...)`). -/
  execStarted : List String := []
deriving Repr, DecidableEq, Inhabited

structure SubmitOutcome where
  payload : AgentPayload
  cached : Bool
  state : GatewayState
deriving Repr, DecidableEq, Inhabited

def agentIdemKey (idem : String) : String := "agent:" ++ idem

def agentSubmit (st : GatewayState) (idem : String) (now : Nat) :
    SubmitOutcome :=
  match lookupA st.dedupe (agentIdemKey idem) with
  | Option.some e => { payload := e.payload, cached := true, state := st }
  | Option.none =>
    let accepted := AgentPayload.accepted idem now
    { payload := accepted
      cached := false
      state :=
        { dedupe :=
            setA st.dedupe (agentIdemKey idem)
              { ts := now, ok := true, payload := accepted }
          execStarted := st.execStarted ++ [idem] } }

/-- The `.then` / `.catch` continuation of the executor call: cache the final
outcome under the same idempotency key. -/
def agentComplete (st : GatewayState) (idem : String) (now : Nat) (ok : Bool)
    (summary : String) : GatewayState :=
  { st with
    dedupe :=
      setA st.dedupe (agentIdemKey idem)
        { ts := now, ok := ok, payload := AgentPayload.done idem ok summary } }

/-- `InOrder s ps` says the character sequences `ps` occur inside `s`,
disjoint and in the given order — the shape of "the prompt contains their
prompts in arrival order". -/
inductive InOrder : List Char → List (List Char) → Prop
  | nil (s : List Char) : InOrder s []
  | cons (pre p rest : List Char) (ps : List (List Char)) :
      InOrder rest ps → InOrder (pre ++ (p ++ rest)) (p :: ps)

/-! ## Map lemmas -/

theorem lookupA_setA_self {α : Type} (m : List (String × α)) (k : String)
    (v : α) : lookupA (setA m k v) k = Option.some v := by
  induction m with
  | nil => simp [lookupA, setA]
  | cons kv rest ih =>
    obtain ⟨k', v'⟩ := kv
    by_cases h : k' = k
    · subst h
      simp [setA, lookupA]
    · simp only [setA, beq_iff_eq, h, if_false]
      simpa [lookupA, h] using ih

theorem setA_setA {α : Type} (m : List (String × α)) (k : String) (v v' : α) :
    setA (setA m k v) k v' = setA m k v' := by
  induction m with
  | nil => simp [setA]
  | cons kv rest ih =>
    obtain ⟨k', w⟩ := kv
    by_cases h : k' = k
    · subst h
      simp [setA]
    · simp [setA, h, ih]

theorem lookupA_eraseA_self {α : Type} (m : List (String × α)) (k : String)
    (hnd : (m.map Prod.fst).Nodup) : lookupA (eraseA m k) k = Option.none := by
  induction m with
  | nil => simp [lookupA, eraseA]
  | cons kv rest ih =>
    obtain ⟨k', v'⟩ := kv
    simp only [List.map_cons, List.nodup_cons] at hnd
    by_cases h : k' = k
    · subst h
      simp only [eraseA, beq_self_eq_true, if_true]
      simp only [lookupA]
      cases hfind : rest.find? (fun kv => kv.1 == k') with
      | none => simp
      | some kv =>
        exfalso
        have hmem := List.find?_some hfind
        have hmem2 := List.mem_of_find?_eq_some hfind
        simp only [beq_iff_eq] at hmem
        exact hnd.1 (hmem ▸ List.mem_map_of_mem Prod.fst hmem2)
    · simp only [eraseA, beq_iff_eq, h, if_false]
      simpa [lookupA, h] using ih hnd.2

/-! ## Claim C10: frame of a `new`-policy rejection -/

theorem isRunAlreadyQueued_false_of_fallback_false (run : FollowupRun)
    (q : FollowupQueueState) (h : isRunAlreadyQueued run q true = false) :
    isRunAlreadyQueued run q false = false := by
  unfold isRunAlreadyQueued at h ⊢
  cases hm : run.messageId.map trimStr with
  | none => simp
  | some m =>
    rw [hm] at h
    by_cases he : m.isEmpty
    · simp [he]
    · simpa [he] using h

/-- C10: an enqueue rejected at cap under drop policy `new` still stamps
`lastEnqueuedAt` with the current time and `lastRun` with the rejected
item's run parameters; the resulting state differs from the
settings-refreshed queue in exactly those two fields (in particular the item
list is unchanged), and the call returns `false`. -/
theorem enqueue_reject_frame (m : QueueMap) (key : String) (run : FollowupRun)
    (settings : QueueSettings) (dedupeMode : QueueDedupeMode) (now : Nat)
    (q : FollowupQueueState) (hq : lookupA m key = Option.some q)
    (hpol : (applyQueueSettings q settings).dropPolicy = QueueDropPolicy.new)
    (hcap : 0 < (applyQueueSettings q settings).cap)
    (hlen : (applyQueueSettings q settings).cap ≤
      (applyQueueSettings q settings).items.length)
    (hnd : isRunAlreadyQueued run (applyQueueSettings q settings) true = false) :
    enqueueFollowupRun m key run settings dedupeMode now =
      (false, setA m key
        { applyQueueSettings q settings with
          lastEnqueuedAt := now, lastRun := Option.some run.run }) := by
  have hnd' := isRunAlreadyQueued_false_of_fallback_false run _ hnd
  unfold enqueueFollowupRun getFollowupQueue
  rw [hq]
  simp only [hnd, hnd', Bool.and_false, Bool.false_or, Bool.or_false,
    Bool.and_self, Bool.false_and]
  rw [if_neg (by simp)]
  simp only [enqueueCore]
  simp [hcap, hlen, hpol, setA_setA]

/-! ## Claim C5: gateway idempotency -/

/-- C5: with no cached entry for the idempotency key, two submits before
completion return the identical accepted payload (same run id, which is the
key itself), the second submit changes nothing, and exactly one executor
run is started; after completion, a late retry observes the cached final
outcome and starts nothing. -/
theorem agent_submit_idempotency (st : GatewayState) (idem : String)
    (t1 t2 t3 t4 : Nat) (ok : Bool) (summary : String)
    (h : lookupA st.dedupe (agentIdemKey idem) = Option.none) :
    (agentSubmit st idem t1).payload = AgentPayload.accepted idem t1 ∧
    (agentSubmit (agentSubmit st idem t1).state idem t2).payload =
      AgentPayload.accepted idem t1 ∧
    (agentSubmit (agentSubmit st idem t1).state idem t2).state =
      (agentSubmit st idem t1).state ∧
    (agentSubmit st idem t1).state.execStarted = st.execStarted ++ [idem] ∧
    (agentSubmit
      (agentComplete (agentSubmit (agentSubmit st idem t1).state idem t2).state
        idem t3 ok summary) idem t4).payload =
      AgentPayload.done idem ok summary ∧
    (agentSubmit
      (agentComplete (agentSubmit (agentSubmit st idem t1).state idem t2).state
        idem t3 ok summary) idem t4).state =
      agentComplete (agentSubmit (agentSubmit st idem t1).state idem t2).state
        idem t3 ok summary := by
  unfold agentSubmit agentComplete
  rw [h]
  simp [lookupA_setA_self]

/-- Witness for C5 at a concrete state: the empty gateway state and the key
`"job-1"`. -/
theorem agent_submit_idempotency_witness :
    (agentSubmit ({} : GatewayState) "job-1" 5).payload =
        AgentPayload.accepted "job-1" 5 ∧
      (agentSubmit (agentSubmit ({} : GatewayState) "job-1" 5).state "job-1"
          7).payload = AgentPayload.accepted "job-1" 5 ∧
      (agentSubmit (agentSubmit ({} : GatewayState) "job-1" 5).state "job-1"
          7).state = (agentSubmit ({} : GatewayState) "job-1" 5).state ∧
      (agentSubmit ({} : GatewayState) "job-1" 5).state.execStarted =
        ([] : List String) ++ ["job-1"] ∧
      (agentSubmit
        (agentComplete
          (agentSubmit (agentSubmit ({} : GatewayState) "job-1" 5).state
            "job-1" 7).state "job-1" 9 true "completed") "job-1" 11).payload =
        AgentPayload.done "job-1" true "completed" ∧
      (agentSubmit
        (agentComplete
          (agentSubmit (agentSubmit ({} : GatewayState) "job-1" 5).state
            "job-1" 7).state "job-1" 9 true "completed") "job-1" 11).state =
        agentComplete
          (agentSubmit (agentSubmit ({} : GatewayState) "job-1" 5).state
            "job-1" 7).state "job-1" 9 true "completed" :=
  agent_submit_idempotency {} "job-1" 5 7 9 11 true "completed" (by rfl)

/-! ## Claim C9: idle staleness and the heartbeat timestamp restore -/

/-- C9: an entry idle longer than `idleMinutes * 60000` ms is stale — the
next initialization issues the freshly generated session id with
session-new state; and the heartbeat skip branch (reply skipped as a
heartbeat acknowledgement, no media) rewrites the stored entry's
`updatedAt` back to the pre-run snapshot value. -/
theorem session_stale_and_heartbeat :
    (∀ (e : SessionEntryL) (now idleMinutes : Nat) (freshId : String),
      idleMinutes * 60000 < now - e.updatedAt →
      initSessionState (Option.some e) false now idleMinutes freshId =
        { sessionId := freshId, isNewSession := true, systemSent := false
          abortedLastRun := false }) ∧
    (∀ (store : SessStore) (key : String) (snap cur : SessionEntryL),
      lookupA store key = Option.some cur →
      heartbeatFinalizeStore true false store key (Option.some snap) =
        setA store key { cur with updatedAt := snap.updatedAt } ∧
      lookupA (heartbeatFinalizeStore true false store key (Option.some snap))
          key = Option.some { cur with updatedAt := snap.updatedAt }) := by
  constructor
  · intro e now idleMinutes freshId hstale
    have : ¬ (now - e.updatedAt ≤ idleMinutes * 60000) := by omega
    simp [initSessionState, this]
  · intro store key snap cur hcur
    have heq : heartbeatFinalizeStore true false store key (Option.some snap) =
        setA store key { cur with updatedAt := snap.updatedAt } := by
      simp [heartbeatFinalizeStore, restoreHeartbeatUpdatedAt, hcur]
    exact ⟨heq, by rw [heq]; exact lookupA_setA_self _ _ _⟩

/-! ## Claim C2: capacity enforcement -/

theorem elideText_length_le (s : String) (limit : Nat) (hl : 1 ≤ limit) :
    (elideText s limit).length ≤ limit := by
  unfold elideText
  split
  · assumption
  · rw [String.length_append]
    have h1 : (trimRightStr ⟨s.data.take (limit - 1)⟩).length ≤ limit - 1 := by
      simp only [trimRightStr, String.length_mk, List.length_reverse]
      calc ((s.data.take (limit - 1)).reverse.dropWhile
            Char.isWhitespace).length
          ≤ (s.data.take (limit - 1)).reverse.length :=
            (List.dropWhile_sublist _).length_le
        _ = (s.data.take (limit - 1)).length := List.length_reverse _
        _ ≤ limit - 1 := by
            rw [List.length_take]
            omega
    have h2 : ("…" : String).length = 1 := rfl
    omega

theorem buildQueueSummaryLine_length_le (r : FollowupRun) :
    (buildQueueSummaryLine r).length ≤ 160 := by
  unfold buildQueueSummaryLine
  exact elideText_length_le _ 160 (by omega)

/-- In any non-collect mode with no pending drop count, the drain loop
issues exactly one executor call per queued item, in arrival order, and
exits with an empty queue. -/
theorem drainLoop_nonCollect (isRoutable : Option String → Bool) (now : Nat) :
    ∀ (fuel : Nat) (q : FollowupQueueState) (force : Bool),
    q.mode ≠ QueueMode.collect → q.droppedCount = 0 →
    q.items.length + 1 ≤ fuel →
    drainLoop isRoutable now fuel q force =
      Option.some (q.items, { q with items := [] }) := by
  intro fuel
  induction fuel with
  | zero =>
    intro q force _ _ hf
    omega
  | succ n ih =>
    intro q force hm hd hf
    obtain ⟨items, draining, lastEnq, mode, db, cap, dp, dc, sl, lr⟩ := q
    simp only at hm hd hf ⊢
    subst hd
    have hmode : (mode == QueueMode.collect) = false := by
      simpa using hm
    cases items with
    | nil => simp [drainLoop]
    | cons x xs =>
      have hsum :
          buildSummaryPrompt
            { items := x :: xs, draining := draining, lastEnqueuedAt := lastEnq
              mode := mode, debounceMs := db, cap := cap, dropPolicy := dp
              droppedCount := 0, summaryLines := sl, lastRun := lr } =
          (Option.none,
            { items := x :: xs, draining := draining, lastEnqueuedAt := lastEnq
              mode := mode, debounceMs := db, cap := cap, dropPolicy := dp
              droppedCount := 0, summaryLines := sl, lastRun := lr }) := by
        simp [buildSummaryPrompt]
      have hrec := ih
        { items := xs, draining := draining, lastEnqueuedAt := lastEnq
          mode := mode, debounceMs := db, cap := cap, dropPolicy := dp
          droppedCount := 0, summaryLines := sl, lastRun := lr } force
        hm rfl (by simpa using Nat.le_of_succ_le_succ hf)
      simp [drainLoop, hmode, hsum, hrec]

/-- C2: enqueueing onto a queue whose length equals its cap. Drop policy
`new` rejects the incoming item with the item list untouched; `old` evicts
the front item to make room; `summarize` additionally counts the eviction
and records a ≤160-character synopsis; and after an `old`-policy eviction a
full (non-collect) drain issues calls for exactly the remaining items — the
evicted front item is never passed to the executor. -/
theorem enqueue_at_cap_drop_policies (q : FollowupQueueState)
    (h0 : FollowupRun) (t : List FollowupRun) (run : FollowupRun) (now : Nat)
    (hitems : q.items = h0 :: t) (hlen : q.items.length = q.cap) :
    (q.dropPolicy = QueueDropPolicy.new →
      enqueueCore q run now =
        (false,
          { q with lastEnqueuedAt := now, lastRun := Option.some run.run })) ∧
    (q.dropPolicy = QueueDropPolicy.old →
      enqueueCore q run now =
        (true,
          { q with
            items := t ++ [run]
            lastEnqueuedAt := now
            lastRun := Option.some run.run })) ∧
    (q.dropPolicy = QueueDropPolicy.summarize →
      enqueueCore q run now =
        (true,
          { q with
            items := t ++ [run]
            lastEnqueuedAt := now
            lastRun := Option.some run.run
            droppedCount := q.droppedCount + 1
            summaryLines :=
              (q.summaryLines ++ [buildQueueSummaryLine h0]).drop
                (q.summaryLines.length + 1 - q.cap) })) ∧
    (buildQueueSummaryLine h0).length ≤ 160 ∧
    (∀ (isRoutable : Option String → Bool) (fuel : Nat),
      q.mode ≠ QueueMode.collect → q.droppedCount = 0 →
      t.length + 2 ≤ fuel →
      drainLoop isRoutable now fuel
          { q with
            items := t ++ [run]
            lastEnqueuedAt := now
            lastRun := Option.some run.run } false =
        Option.some (t ++ [run],
          { q with
            items := []
            lastEnqueuedAt := now
            lastRun := Option.some run.run })) := by
  have hcap : 0 < q.cap := by
    rw [← hlen, hitems]
    simp
  have hcond : (decide (q.cap > 0) && decide (q.items.length ≥ q.cap)) =
      true := by
    simp [hcap, hlen.ge]
  have hlen' : t.length + 1 = q.cap := by
    rw [← hlen, hitems]
    simp
  have ht0 : t.length + 1 - q.cap = 0 := by omega
  have hle : q.cap ≤ t.length + 1 := by omega
  refine ⟨?_, ?_, ?_, buildQueueSummaryLine_length_le h0, ?_⟩
  · intro hpol
    simp [enqueueCore, hcond, hpol]
  · intro hpol
    simp [enqueueCore, hcond, hpol, hitems, ht0, hle, hcap]
  · intro hpol
    simp [enqueueCore, hcond, hpol, hitems, ht0, hle, hcap]
  · intro isRoutable fuel hm hd hf
    have := drainLoop_nonCollect isRoutable now fuel
      { q with
        items := t ++ [run]
        lastEnqueuedAt := now
        lastRun := Option.some run.run } false hm hd
      (by simpa using hf)
    simpa using this

/-- Witness for C2 at the spec's concrete scenario (cap = 2, three distinct
items): under `old` the third item evicts the oldest, the queue length stays
2, and a full drain issues calls for exactly the two surviving items — the
evicted item is not among them. -/
theorem enqueue_at_cap_drop_policies_witness :
    (enqueueCore
        { items := [{ prompt := "one" }, { prompt := "two" }]
          mode := QueueMode.followup
          cap := 2
          dropPolicy := QueueDropPolicy.old }
        { prompt := "three" } 99 =
      (true,
        { items := [{ prompt := "two" }, { prompt := "three" }]
          mode := QueueMode.followup
          cap := 2
          dropPolicy := QueueDropPolicy.old
          lastEnqueuedAt := 99
          lastRun := Option.some {} })) ∧
    drainLoop (fun _ => false) 99 4
        { items := [{ prompt := "two" }, { prompt := "three" }]
          mode := QueueMode.followup
          cap := 2
          dropPolicy := QueueDropPolicy.old
          lastEnqueuedAt := 99
          lastRun := Option.some {} } false =
      Option.some ([{ prompt := "two" }, { prompt := "three" }],
        { items := []
          mode := QueueMode.followup
          cap := 2
          dropPolicy := QueueDropPolicy.old
          lastEnqueuedAt := 99
          lastRun := Option.some {} }) ∧
    ({ prompt := "one" } : FollowupRun) ∉
      [({ prompt := "two" } : FollowupRun), { prompt := "three" }] := by
  have h := enqueue_at_cap_drop_policies
    { items := [{ prompt := "one" }, { prompt := "two" }]
      mode := QueueMode.followup
      cap := 2
      dropPolicy := QueueDropPolicy.old }
    { prompt := "one" } [{ prompt := "two" }] { prompt := "three" } 99 rfl rfl
  refine ⟨h.2.1 rfl, ?_, by decide⟩
  exact h.2.2.2.2 (fun _ => false) 4 (by decide) rfl (by decide)

/-- Witness for C10: a full queue (cap 1) under drop policy `new` rejects
the item but still updates `lastEnqueuedAt` and `lastRun`. -/
theorem enqueue_reject_frame_witness :
    enqueueFollowupRun
        [("k",
          { items := [{ prompt := "a" }]
            mode := QueueMode.followup
            cap := 1
            dropPolicy := QueueDropPolicy.new })] "k" { prompt := "b" }
        { mode := QueueMode.followup } QueueDedupeMode.messageId 77 =
      (false,
        [("k",
          { items := [{ prompt := "a" }]
            mode := QueueMode.followup
            cap := 1
            dropPolicy := QueueDropPolicy.new
            lastEnqueuedAt := 77
            lastRun := Option.some {} })]) := by
  have h := enqueue_reject_frame
    [("k",
      { items := [{ prompt := "a" }]
        mode := QueueMode.followup
        cap := 1
        dropPolicy := QueueDropPolicy.new })] "k" { prompt := "b" }
    { mode := QueueMode.followup } QueueDedupeMode.messageId 77
    { items := [{ prompt := "a" }]
      mode := QueueMode.followup
      cap := 1
      dropPolicy := QueueDropPolicy.new } rfl rfl (by decide) (by decide) rfl
  exact h

/-! ## Claim C3: de-duplication by mode (corrected)

The claim says `prompt` mode dedupes on exact prompt+route match.  The code
checks the trimmed message id first in every dedupe mode; the prompt
comparison is only a fallback for items with no usable message id, so two
items with the same prompt and route but different message ids are NOT
deduplicated in `prompt` mode. -/

/-- Counterexample to C3 as stated: in `prompt` mode, an incoming item with
the same prompt ("hi") and the same (empty) originating route as the queued
item but a different message id is appended — not dropped — leaving two
queued copies of the prompt. -/
theorem dedupe_prompt_mode_counterexample :
    (enqueueFollowupRun
        [("k",
          { items := [{ prompt := "hi", messageId := Option.some "a" }]
            mode := QueueMode.followup })] "k"
        { prompt := "hi", messageId := Option.some "b" }
        { mode := QueueMode.followup } QueueDedupeMode.prompt 5).1 = true ∧
    (lookupA (enqueueFollowupRun
        [("k",
          { items := [{ prompt := "hi", messageId := Option.some "a" }]
            mode := QueueMode.followup })] "k"
        { prompt := "hi", messageId := Option.some "b" }
        { mode := QueueMode.followup } QueueDedupeMode.prompt 5).2 "k").map
      (fun s => s.items.map (·.prompt)) = Option.some ["hi", "hi"] := by
  constructor
  · rfl
  · rfl

/-- C3 (amended): `message-id` mode drops an item exactly when its trimmed,
nonempty message id and its originating route match an already-queued item;
`prompt` mode dedupes on exact prompt+route only for items with no usable
(nonempty trimmed) message id — otherwise it too compares message ids; and
`none` mode never dedupes: the enqueue proceeds to the capacity/append path
regardless of what is queued. -/
theorem dedupe_modes_amended (m : QueueMap) (key : String) (run : FollowupRun)
    (settings : QueueSettings) (now : Nat) (q : FollowupQueueState)
    (hq : lookupA m key = Option.some q) :
    (isRunAlreadyQueued run (applyQueueSettings q settings) false = true →
      enqueueFollowupRun m key run settings QueueDedupeMode.messageId now =
        (false, setA m key (applyQueueSettings q settings))) ∧
    (isRunAlreadyQueued run (applyQueueSettings q settings) false = true ↔
      ∃ mid, run.messageId.map trimStr = Option.some mid ∧ mid ≠ "" ∧
        ∃ item ∈ q.items, item.messageId.map trimStr = Option.some mid ∧
          sameRouting run item = true) ∧
    (strFalsy (run.messageId.map trimStr) = true →
      (∃ item ∈ q.items, item.prompt = run.prompt ∧
        sameRouting run item = true) →
      enqueueFollowupRun m key run settings QueueDedupeMode.prompt now =
        (false, setA m key (applyQueueSettings q settings))) ∧
    (enqueueFollowupRun m key run settings QueueDedupeMode.none now =
      ((enqueueCore (applyQueueSettings q settings) run now).1,
        setA m key (enqueueCore (applyQueueSettings q settings) run now).2)) := by
  have hitems : (applyQueueSettings q settings).items = q.items := rfl
  refine ⟨?_, ?_, ?_, ?_⟩
  · intro hdup
    unfold enqueueFollowupRun getFollowupQueue
    rw [hq]
    simp [hdup]
  · unfold isRunAlreadyQueued
    cases hmid : run.messageId.map trimStr with
    | none =>
      simp only [Bool.false_and]
      constructor
      · intro h
        simp at h
      · rintro ⟨mid, hmid', _⟩
        simp at hmid'
    | some mid =>
      by_cases he : mid.isEmpty
      · simp only [he, if_true, Bool.false_and]
        constructor
        · intro h
          simp at h
        · rintro ⟨mid', hmid', hne, _⟩
          have : mid' = mid := by
            simpa using hmid'.symm
          subst this
          exact (hne (by rwa [String.isEmpty_iff] at he)).elim
      · simp only [he, Bool.false_eq_true, if_false]
        rw [List.any_eq_true]
        constructor
        · rintro ⟨item, hmem, hp⟩
          simp only [Bool.and_eq_true, beq_iff_eq] at hp
          exact ⟨mid, rfl, fun h => he (by rw [h]; rfl),
            item, by simpa [hitems] using hmem, hp.1, hp.2⟩
        · rintro ⟨mid', hmid', hne, item, hmem, hid, hroute⟩
          have : mid' = mid := by simpa using hmid'.symm
          subst this
          exact ⟨item, by simpa [hitems] using hmem, by simp [hid, hroute]⟩
  · intro hfalsy hmatch
    have hdup : isRunAlreadyQueued run (applyQueueSettings q settings) true =
        true := by
      unfold isRunAlreadyQueued
      have hpm : (applyQueueSettings q settings).items.any (fun item =>
          item.prompt == run.prompt && sameRouting run item) = true := by
        rw [List.any_eq_true]
        obtain ⟨item, hmem, hp, hr⟩ := hmatch
        exact ⟨item, by simpa [hitems] using hmem, by simp [hp, hr]⟩
      cases hmid : run.messageId.map trimStr with
      | none => simpa using hpm
      | some mid =>
        rw [hmid] at hfalsy
        have he : mid.isEmpty = true := by simpa [strFalsy] using hfalsy
        simpa [he] using hpm
    unfold enqueueFollowupRun getFollowupQueue
    rw [hq]
    simp [hdup]
  · unfold enqueueFollowupRun getFollowupQueue
    rw [hq]
    simp [setA_setA]

/-- Witness for the amended C3: two triggers with identical message id and
identical (empty) route collapse — the second enqueue is dropped in the
default `message-id` mode. -/
theorem dedupe_modes_amended_witness :
    enqueueFollowupRun
        [("k",
          { items := [{ prompt := "first", messageId := Option.some "m1" }]
            mode := QueueMode.followup })] "k"
        { prompt := "second", messageId := Option.some "m1" }
        { mode := QueueMode.followup } QueueDedupeMode.messageId 9 =
      (false,
        setA
          [("k",
            { items := [{ prompt := "first", messageId := Option.some "m1" }]
              mode := QueueMode.followup })] "k"
          (applyQueueSettings
            { items := [{ prompt := "first", messageId := Option.some "m1" }]
              mode := QueueMode.followup }
            { mode := QueueMode.followup })) :=
  (dedupe_modes_amended
    [("k",
      { items := [{ prompt := "first", messageId := Option.some "m1" }]
        mode := QueueMode.followup })] "k"
    { prompt := "second", messageId := Option.some "m1" }
    { mode := QueueMode.followup } 9
    { items := [{ prompt := "first", messageId := Option.some "m1" }]
      mode := QueueMode.followup } rfl).1 (by decide)

/-! ## Claim C4: drain re-entrancy guard and teardown -/

/-- C4: scheduling a drain for a key whose state is already draining is a
no-op (so at most one drain loop runs per key); and when the loop exits, the
per-key state is discarded exactly when no items and no drop-summary remain
(the key returns to Idle), otherwise the state is kept and a new drain is
scheduled. -/
theorem drain_reentrancy_and_teardown :
    (∀ (isRoutable : Option String → Bool) (fuel now : Nat) (m : QueueMap)
      (key : String) (q : FollowupQueueState),
      lookupA m key = Option.some q → q.draining = true →
      scheduleFollowupDrain isRoutable fuel now m key =
        Option.some ([], m, false)) ∧
    (∀ (isRoutable : Option String → Bool) (fuel now : Nat) (m : QueueMap)
      (key : String) (q : FollowupQueueState) (calls : List FollowupRun)
      (q' : FollowupQueueState),
      lookupA m key = Option.some q → q.draining = false →
      drainLoop isRoutable now fuel { q with draining := true } false =
        Option.some (calls, q') →
      ((q'.items.length = 0 ∧ q'.droppedCount = 0 →
        scheduleFollowupDrain isRoutable fuel now m key =
          Option.some (calls, eraseA m key, false) ∧
        ((m.map Prod.fst).Nodup →
          lookupA (eraseA m key) key = Option.none)) ∧
      (¬(q'.items.length = 0 ∧ q'.droppedCount = 0) →
        scheduleFollowupDrain isRoutable fuel now m key =
          Option.some (calls, setA m key { q' with draining := false },
            true)))) := by
  constructor
  · intro isRoutable fuel now m key q hq hdr
    unfold scheduleFollowupDrain
    rw [hq]
    simp [hdr]
  · intro isRoutable fuel now m key q calls q' hq hdr hloop
    constructor
    · intro hempty
      constructor
      · unfold scheduleFollowupDrain
        rw [hq]
        simp [hdr, hloop, hempty.1, hempty.2]
      · intro hnd
        exact lookupA_eraseA_self m key hnd
    · intro hnonempty
      unfold scheduleFollowupDrain
      rw [hq]
      have : ¬(q'.items.length == 0 && q'.droppedCount == 0) = true := by
        simp only [Bool.and_eq_true, beq_iff_eq]
        exact fun h => hnonempty ⟨h.1, h.2⟩
      simp [hdr, hloop, this]

/-! ## Claim C6: summary-only executor call -/

/-- C6: a drain that finds no queued items but a positive dropped count
(under the `summarize` policy, with run parameters remembered from the last
enqueue) issues exactly one executor call whose prompt is the overflow
summary, after which the dropped count and summary lines are reset and the
queue state is discarded. -/
theorem drain_summary_only_call (isRoutable : Option String → Bool)
    (m : QueueMap) (key : String) (q : FollowupQueueState) (now fuel : Nat)
    (rp : RunParams) (sp : String)
    (hq : lookupA m key = Option.some q) (hdr : q.draining = false)
    (hm : q.mode ≠ QueueMode.collect) (hitems : q.items = [])
    (hdc : 0 < q.droppedCount)
    (hpol : q.dropPolicy = QueueDropPolicy.summarize)
    (hlast : q.lastRun = Option.some rp)
    (hsp : (buildSummaryPrompt q).1 = Option.some sp) (hfuel : 2 ≤ fuel) :
    scheduleFollowupDrain isRoutable fuel now m key =
      Option.some ([{ prompt := sp, run := rp, enqueuedAt := now }],
        eraseA m key, false) ∧
    (buildSummaryPrompt q).2.droppedCount = 0 ∧
    (buildSummaryPrompt q).2.summaryLines = [] := by
  obtain ⟨items, draining, lastEnq, mode, db, cap, dp, dc, sl, lr⟩ := q
  simp only at hdr hm hitems hdc hpol hlast hsp ⊢
  subst hdr hitems hpol hlast
  have hdc' : (dc == 0) = false := by
    simp only [beq_eq_false_iff_ne]
    omega
  have hmode : (mode == QueueMode.collect) = false := by
    simpa using hm
  obtain ⟨f, rfl⟩ : ∃ f, fuel = f + 2 := ⟨fuel - 2, by omega⟩
  have hsum :
      buildSummaryPrompt
        { items := [], draining := true, lastEnqueuedAt := lastEnq
          mode := mode, debounceMs := db, cap := cap
          dropPolicy := QueueDropPolicy.summarize, droppedCount := dc
          summaryLines := sl, lastRun := Option.some rp } =
      (Option.some sp,
        { items := [], draining := true, lastEnqueuedAt := lastEnq
          mode := mode, debounceMs := db, cap := cap
          dropPolicy := QueueDropPolicy.summarize, droppedCount := 0
          summaryLines := [], lastRun := Option.some rp }) := by
    simp only [buildSummaryPrompt, hdc'] at hsp ⊢
    simp only [bne_self_eq_false, Bool.false_or] at hsp ⊢
    simp_all
  constructor
  · unfold scheduleFollowupDrain
    rw [hq]
    simp [drainLoop, hdc', hmode, hsum]
  · simp only [buildSummaryPrompt, hdc']
    simp

/-- Witness for C6: two dropped messages with recorded synopses are
delivered as one synthesized summary call and the state is discarded. -/
theorem drain_summary_only_call_witness :
    scheduleFollowupDrain (fun _ => false) 2 50
        [("k",
          { items := []
            mode := QueueMode.followup
            droppedCount := 2
            summaryLines := ["one", "two"]
            dropPolicy := QueueDropPolicy.summarize
            lastRun := Option.some {} })] "k" =
      Option.some
        ([{ prompt :=
              "[Queue overflow] Dropped 2 messages due to cap.\nSummary:\n- one\n- two"
            run := {}
            enqueuedAt := 50 }],
          eraseA
            [("k",
              { items := []
                mode := QueueMode.followup
                droppedCount := 2
                summaryLines := ["one", "two"]
                dropPolicy := QueueDropPolicy.summarize
                lastRun := Option.some {} })] "k", false) ∧
    (buildSummaryPrompt
      { items := []
        mode := QueueMode.followup
        droppedCount := 2
        summaryLines := ["one", "two"]
        dropPolicy := QueueDropPolicy.summarize
        lastRun := Option.some {} }).2.droppedCount = 0 ∧
    (buildSummaryPrompt
      { items := []
        mode := QueueMode.followup
        droppedCount := 2
        summaryLines := ["one", "two"]
        dropPolicy := QueueDropPolicy.summarize
        lastRun := Option.some {} }).2.summaryLines = [] :=
  drain_summary_only_call (fun _ => false)
    [("k",
      { items := []
        mode := QueueMode.followup
        droppedCount := 2
        summaryLines := ["one", "two"]
        dropPolicy := QueueDropPolicy.summarize
        lastRun := Option.some {} })] "k"
    { items := []
      mode := QueueMode.followup
      droppedCount := 2
      summaryLines := ["one", "two"]
      dropPolicy := QueueDropPolicy.summarize
      lastRun := Option.some {} } 50 2 {} _ rfl rfl (by decide) rfl
    (by decide) rfl rfl rfl (by decide)

/-! ## Claim C8: cached load -/

/-- C8: `loadSessionStore` returns the cached snapshot exactly when caching
is enabled, the cached entry is fresh (age within the ttl window) and the
file's modification time is unchanged; when it does, the result is the
cached mapping; otherwise the file is re-read, and a missing or malformed
file (parse yields nothing) gives an empty mapping rather than an error. -/
theorem load_session_store_cache_iff (cacheEnabled : Bool) (ttl now : Nat)
    (cache : SessCache) (storePath : String) (fsMtime : Option Nat)
    (fsParse : Option (List (String × SessionEntryL))) :
    ((loadSessionStore cacheEnabled ttl now cache storePath fsMtime
        fsParse).2.2 = true ↔
      cacheEnabled = true ∧ ∃ c, lookupA cache storePath = Option.some c ∧
        isSessionStoreCacheValid ttl now c = true ∧ fsMtime = c.mtimeMs) ∧
    (∀ c, lookupA cache storePath = Option.some c →
      (loadSessionStore cacheEnabled ttl now cache storePath fsMtime
        fsParse).2.2 = true →
      (loadSessionStore cacheEnabled ttl now cache storePath fsMtime
        fsParse).1 = c.store) ∧
    ((loadSessionStore cacheEnabled ttl now cache storePath fsMtime
        fsParse).2.2 = false →
      (loadSessionStore cacheEnabled ttl now cache storePath fsMtime
        fsParse).1 = fsParse.getD []) := by
  unfold loadSessionStore
  cases cacheEnabled with
  | false => simp
  | true =>
    cases hc : lookupA cache storePath with
    | none => simp
    | some c =>
      by_cases hvalid : isSessionStoreCacheValid ttl now c = true
      · by_cases hmt : fsMtime = c.mtimeMs
        · simp [hvalid, hmt]
        · have hmt' : (fsMtime == c.mtimeMs) = false := by
            simpa using hmt
          simp [hvalid, hmt', hmt]
      · have hvalid' : isSessionStoreCacheValid ttl now c = false := by
          simpa using hvalid
        simp [hvalid']

/-! ## Claim C7: atomic save with a single ENOENT retry -/

theorem lookupA_setA_ne {α : Type} (m : List (String × α)) (k k' : String)
    (v : α) (h : k' ≠ k) : lookupA (setA m k v) k' = lookupA m k' := by
  have hkk' : (k == k') = false := by
    simpa using fun he => h he.symm
  induction m with
  | nil => simp [lookupA, setA, List.find?, hkk']
  | cons kv rest ih =>
    obtain ⟨k'', v''⟩ := kv
    by_cases hk : k'' = k
    · subst hk
      have hbeq : (k'' == k'') = true := by simp
      simp [setA, lookupA, List.find?, hkk', hbeq]
    · have hbeq : (k'' == k) = false := by simpa using hk
      simp only [setA, hbeq, Bool.false_eq_true, if_false]
      simp only [lookupA, List.find?] at ih ⊢
      cases hc : (k'' == k') with
      | true => simp [hc]
      | false => simpa [hc] using ih

theorem lookupA_eraseA_ne {α : Type} (m : List (String × α)) (k k' : String)
    (h : k' ≠ k) : lookupA (eraseA m k) k' = lookupA m k' := by
  induction m with
  | nil => simp [lookupA, eraseA]
  | cons kv rest ih =>
    obtain ⟨k'', v''⟩ := kv
    by_cases hk : k'' = k
    · subst hk
      have hkk' : (k'' == k') = false := by
        simpa using fun he => h he.symm
      simp only [eraseA, beq_self_eq_true, if_true]
      simp only [lookupA, List.find?, hkk']
    · have hbeq : (k'' == k) = false := by simpa using hk
      simp only [eraseA, hbeq, Bool.false_eq_true, if_false]
      simp only [lookupA, List.find?] at ih ⊢
      cases hc : (k'' == k') with
      | true => simp [hc]
      | false => simpa [hc] using ih

theorem sessionTmpPath_ne (storePath tag : String) :
    sessionTmpPath storePath tag ≠ storePath := by
  intro h
  have hlen := congrArg String.length h
  rw [sessionTmpPath] at hlen
  rw [String.length_append, String.length_append, String.length_append] at hlen
  have h1 : ("." : String).length = 1 := rfl
  have h2 : (".tmp" : String).length = 4 := rfl
  omega

/-- C7: `saveSessionStore` invalidates the cache entry for the path first in
every outcome; on the happy path it writes a temp file and renames it over
the target, so the content observable at the store path is at every moment
either the original content or the full new document, never a partial one;
a first ENOENT leads to one mkdir retry with a direct write, a second
ENOENT is swallowed (the write is dropped, no error), and any other error
code propagates to the caller. -/
theorem save_session_store_properties (cache : SessCache) (fs : Fs)
    (storePath tag json : String) :
    (∀ o : SaveOutcome,
      (saveSessionStore cache fs storePath tag json o).cache =
        eraseA cache storePath) ∧
    ((saveSessionStore cache fs storePath tag json {}).result =
        Except.ok () ∧
      (saveSessionStore cache fs storePath tag json {}).trace.map
          (fun s => lookupA s storePath) =
        [lookupA fs storePath, lookupA fs storePath, Option.some json,
          Option.some json] ∧
      lookupA (saveSessionStore cache fs storePath tag json {}).fs storePath =
        Option.some json) ∧
    ((saveSessionStore cache fs storePath tag json
        { rename1 := Option.some "ENOENT" }).result = Except.ok () ∧
      lookupA (saveSessionStore cache fs storePath tag json
          { rename1 := Option.some "ENOENT" }).fs storePath =
        Option.some json) ∧
    ((saveSessionStore cache fs storePath tag json
        { write1 := Option.some "ENOENT"
          write2 := Option.some "ENOENT" }).result = Except.ok () ∧
      lookupA (saveSessionStore cache fs storePath tag json
          { write1 := Option.some "ENOENT"
            write2 := Option.some "ENOENT" }).fs storePath =
        lookupA fs storePath) ∧
    ((saveSessionStore cache fs storePath tag json
        { write1 := Option.some "EACCES" }).result =
        Except.error "EACCES" ∧
      (saveSessionStore cache fs storePath tag json
        { rename1 := Option.some "EROFS" }).result = Except.error "EROFS" ∧
      (saveSessionStore cache fs storePath tag json
        { write1 := Option.some "ENOENT"
          write2 := Option.some "EACCES" }).result =
        Except.error "EACCES") := by
  have hne := sessionTmpPath_ne storePath tag
  have hne' : storePath ≠ sessionTmpPath storePath tag := Ne.symm hne
  refine ⟨fun o => ?_, ⟨rfl, ?_, ?_⟩, ⟨rfl, ?_⟩, ⟨rfl, ?_⟩, rfl, rfl, rfl⟩
  · unfold saveSessionStore
    cases o.write1 <;> cases o.rename1 <;> cases o.write2 <;> simp
  · unfold saveSessionStore
    simp [lookupA_setA_ne _ _ _ _ hne', lookupA_setA_self,
      lookupA_eraseA_ne _ _ _ hne']
  · unfold saveSessionStore
    simp [lookupA_setA_ne _ _ _ _ hne', lookupA_setA_self,
      lookupA_eraseA_ne _ _ _ hne']
  · unfold saveSessionStore
    simp [lookupA_setA_ne _ _ _ _ hne', lookupA_setA_self,
      lookupA_eraseA_ne _ _ _ hne']
  · unfold saveSessionStore
    simp [lookupA_eraseA_ne _ _ _ hne']

/-! ## Claim C1: collect-mode merging -/

theorem inOrder_joinSep (sep : String) (blocks : List String)
    (ps : List (List Char))
    (hrel : List.Forall₂ (fun (b : String) (p : List Char) =>
      ∃ pre, b.data = pre ++ p) blocks ps) :
    ∀ pre0 : List Char, InOrder (pre0 ++ (joinSep sep blocks).data) ps := by
  induction hrel with
  | nil =>
    intro pre0
    exact InOrder.nil _
  | @cons b p bs ps' hbp htail ih =>
    intro pre0
    obtain ⟨pre, hb⟩ := hbp
    cases bs with
    | nil =>
      cases htail
      have : pre0 ++ (joinSep sep [b]).data = (pre0 ++ pre) ++ (p ++ []) := by
        simp [joinSep, hb, List.append_assoc]
      rw [this]
      exact InOrder.cons _ _ _ _ (InOrder.nil _)
    | cons b' bs' =>
      have hJ : (joinSep sep (b :: b' :: bs')).data =
          b.data ++ (sep.data ++ (joinSep sep (b' :: bs')).data) := by
        show (b ++ sep ++ joinSep sep (b' :: bs')).data = _
        rw [String.data_append, String.data_append, List.append_assoc]
      have goal2 : pre0 ++ (joinSep sep (b :: b' :: bs')).data =
          (pre0 ++ pre) ++
            (p ++ (sep.data ++ (joinSep sep (b' :: bs')).data)) := by
        rw [hJ, hb]
        simp [List.append_assoc]
      rw [goal2]
      exact InOrder.cons _ _ _ _ (ih sep.data)

theorem dropWhile_eq_self_append (p : Char → Bool) (l l' : List Char)
    (hl : l.dropWhile p = l) (hne : l ≠ []) :
    (l ++ l').dropWhile p = l ++ l' := by
  cases l with
  | nil => exact absurd rfl hne
  | cons c cs =>
    have hc : ¬ p c = true := by
      intro hpc
      rw [List.dropWhile_cons_of_pos hpc] at hl
      have hlen := congrArg List.length hl
      have hle : (cs.dropWhile p).length ≤ cs.length :=
        (List.dropWhile_sublist _).length_le
      simp at hlen
      omega
    rw [List.cons_append, List.dropWhile_cons_of_neg hc]

theorem trimRightStr_append_fixed (s p : String) (hp : trimRightStr p = p)
    (hpne : p ≠ "") : trimRightStr (s ++ p) = s ++ p := by
  have hdata : (p.data.reverse.dropWhile Char.isWhitespace).reverse =
      p.data := congrArg String.data hp
  have hdw : p.data.reverse.dropWhile Char.isWhitespace = p.data.reverse := by
    have := congrArg List.reverse hdata
    simpa using this
  have hne : p.data.reverse ≠ [] := by
    intro h
    apply hpne
    have : p.data = [] := by simpa using congrArg List.reverse h
    exact String.ext this
  show String.mk _ = s ++ p
  rw [String.data_append, List.reverse_append,
    dropWhile_eq_self_append _ _ _ hdw hne, List.reverse_append,
    List.reverse_reverse, List.reverse_reverse, ← String.data_append]

theorem trimStr_header_append (s p : String)
    (hs : ∃ c cs, s.data = c :: cs ∧ c.isWhitespace = false)
    (hp : trimRightStr p = p) (hpne : p ≠ "") :
    trimStr (s ++ p) = s ++ p := by
  obtain ⟨c, cs, hsd, hcw⟩ := hs
  have hleft : trimLeftStr (s ++ p) = s ++ p := by
    show String.mk _ = s ++ p
    rw [String.data_append, hsd, List.cons_append,
      List.dropWhile_cons_of_neg (by simp [hcw]), ← List.cons_append, ← hsd,
      ← String.data_append]
  rw [trimStr, hleft]
  exact trimRightStr_append_fixed s p hp hpne

/-- The item blocks of `buildCollectPrompt` each contain the item's prompt
verbatim (for prompts with no trailing whitespace). -/
theorem collect_blocks_rel (items : List FollowupRun)
    (hclean : ∀ it ∈ items,
      trimRightStr it.prompt = it.prompt ∧ it.prompt ≠ "") :
    ∀ n : Nat, List.Forall₂ (fun (b : String) (p : List Char) =>
      ∃ pre, b.data = pre ++ p)
      ((List.enumFrom n items).map (fun p =>
        trimStr ("---\nQueued #" ++ toString (p.1 + 1) ++ "\n" ++ p.2.prompt)))
      (items.map (fun it => it.prompt.data)) := by
  induction items with
  | nil =>
    intro n
    exact List.Forall₂.nil
  | cons it rest ih =>
    intro n
    obtain ⟨hfix, hne⟩ := hclean it (by simp)
    have hblock :
        trimStr ("---\nQueued #" ++ toString (n + 1) ++ "\n" ++ it.prompt) =
          ("---\nQueued #" ++ toString (n + 1) ++ "\n") ++ it.prompt := by
      have hex : ∃ c cs,
          ("---\nQueued #" ++ toString (n + 1) ++ "\n").data = c :: cs ∧
            c.isWhitespace = false := by
        refine ⟨'-',
          "--\nQueued #".data ++ (toString (n + 1)).data ++ "\n".data, ?_,
          rfl⟩
        show (("---\nQueued #" ++ toString (n + 1)) ++ "\n").data = _
        rw [String.data_append, String.data_append]
        show ('-' :: "--\nQueued #".data) ++ (toString (n + 1)).data ++
          "\n".data = _
        simp [List.append_assoc]
      exact trimStr_header_append
        ("---\nQueued #" ++ toString (n + 1) ++ "\n") it.prompt hex hfix hne
    refine List.Forall₂.cons ?_ (ih (fun x hx => hclean x (by simp [hx])) (n + 1))
    refine ⟨("---\nQueued #" ++ toString (n + 1) ++ "\n").data, ?_⟩
    show (trimStr ("---\nQueued #" ++ toString (n + 1) ++ "\n" ++
      it.prompt)).data =
      ("---\nQueued #" ++ toString (n + 1) ++ "\n").data ++ it.prompt.data
    rw [hblock, String.data_append]

/-- Once a collect-mode drain has switched to per-item processing, it ships
every remaining item as its own call and never merges again. -/
theorem drainLoop_collect_forced (isRoutable : Option String → Bool)
    (now : Nat) :
    ∀ (fuel : Nat) (q : FollowupQueueState),
    q.mode = QueueMode.collect → q.droppedCount = 0 →
    q.items.length + 1 ≤ fuel →
    drainLoop isRoutable now fuel q true =
      Option.some (q.items, { q with items := [] }) := by
  intro fuel
  induction fuel with
  | zero =>
    intro q _ _ hf
    omega
  | succ n ih =>
    intro q hm hd hf
    obtain ⟨items, draining, lastEnq, mode, db, cap, dp, dc, sl, lr⟩ := q
    simp only at hm hd hf ⊢
    subst hd hm
    cases items with
    | nil => simp [drainLoop]
    | cons x xs =>
      have hrec := ih
        { items := xs, draining := draining, lastEnqueuedAt := lastEnq
          mode := QueueMode.collect, debounceMs := db, cap := cap
          dropPolicy := dp, droppedCount := 0, summaryLines := sl
          lastRun := lr } rfl rfl (by simpa using Nat.le_of_succ_le_succ hf)
      simp [drainLoop, hrec]

/-- The first component of `buildSummaryPrompt` depends only on the policy,
the dropped count and the summary lines. -/
theorem buildSummaryPrompt_fst (q q' : FollowupQueueState)
    (h1 : q'.dropPolicy = q.dropPolicy)
    (h2 : q'.droppedCount = q.droppedCount)
    (h3 : q'.summaryLines = q.summaryLines) :
    (buildSummaryPrompt q').1 = (buildSummaryPrompt q).1 := by
  unfold buildSummaryPrompt
  rw [h1, h2, h3]
  cases hcond : (q.dropPolicy != QueueDropPolicy.summarize ||
    q.droppedCount == 0) <;> simp [hcond]

/-- `buildCollectPrompt` written as a head block followed by the optional
summary block and the per-item blocks. -/
theorem buildCollectPrompt_eq (items : List FollowupRun)
    (summary : Option String) :
    buildCollectPrompt items summary =
      joinSep "\n\n" ("[Queued messages while agent was busy]" ::
        (summary.toList ++ (List.enumFrom 0 items).map (fun p =>
          trimStr ("---\nQueued #" ++ toString (p.1 + 1) ++ "\n" ++
            p.2.prompt)))) := by
  unfold buildCollectPrompt
  cases summary <;> rfl

/-- A head block in front of related blocks preserves the in-order
containment witnessed by the blocks. -/
theorem inOrder_head_joinSep (head sep : String) (blocks : List String)
    (ps : List (List Char))
    (hrel : List.Forall₂ (fun (b : String) (p : List Char) =>
      ∃ pre, b.data = pre ++ p) blocks ps) :
    InOrder (joinSep sep (head :: blocks)).data ps := by
  cases blocks with
  | nil =>
    cases hrel
    exact InOrder.nil _
  | cons b bs =>
    have hJ : (joinSep sep (head :: b :: bs)).data =
        (head.data ++ sep.data) ++ (joinSep sep (b :: bs)).data := by
      show ((head ++ sep) ++ joinSep sep (b :: bs)).data = _
      rw [String.data_append, String.data_append]
    rw [hJ]
    exact inOrder_joinSep sep _ _ hrel _

/-- C1: in collect mode, when the queued items share one originating route
(`hasCrossChannelItems` is false) the whole batch drains as a single
executor call — the `collectCall` whose prompt is `buildCollectPrompt` over
the items in arrival order, prefixed by any pending drop-summary, with the
run parameters of the last item — after which the key's state is discarded;
that prompt contains the drop-summary and then every item's prompt in
arrival order; and when the items span more than one route (or mix routable
and non-routable ones) the drain issues exactly one call per item, in
arrival order, never merging for the rest of the cycle. -/
theorem collect_drain_merge_or_per_item (isRoutable : Option String → Bool)
    (fuel now : Nat) (m : QueueMap) (key : String) (q : FollowupQueueState)
    (hq : lookupA m key = Option.some q) (hdr : q.draining = false)
    (hm : q.mode = QueueMode.collect) :
    (∀ lastItem : FollowupRun,
      hasCrossChannelItems isRoutable q.items = false →
      q.items.getLast? = Option.some lastItem →
      (q.droppedCount = 0 ∨ q.dropPolicy = QueueDropPolicy.summarize) →
      2 ≤ fuel →
      scheduleFollowupDrain isRoutable fuel now m key =
        Option.some
          ([collectCall q.items (buildSummaryPrompt q).1 lastItem.run now],
            eraseA m key, false)) ∧
    ((∀ it ∈ q.items, trimRightStr it.prompt = it.prompt ∧ it.prompt ≠ "") →
      InOrder (buildCollectPrompt q.items (buildSummaryPrompt q).1).data
        (((buildSummaryPrompt q).1.toList.map String.data) ++
          q.items.map (fun it => it.prompt.data))) ∧
    (hasCrossChannelItems isRoutable q.items = true →
      q.droppedCount = 0 → q.items.length + 1 ≤ fuel →
      scheduleFollowupDrain isRoutable fuel now m key =
        Option.some (q.items, eraseA m key, false)) := by
  refine ⟨?_, ?_, ?_⟩
  · -- single merged call
    intro lastItem hcc hlast hdp hfuel
    obtain ⟨f, rfl⟩ : ∃ f, fuel = f + 2 := ⟨fuel - 2, by omega⟩
    obtain ⟨items, draining, lastEnq, mode, db, cap, dp, dc, sl, lr⟩ := q
    simp only at hdr hm hcc hlast hdp ⊢
    subst hdr hm
    cases items with
    | nil => simp at hlast
    | cons x xs =>
      unfold scheduleFollowupDrain
      rw [hq]
      have hempty : ∀ q2 : FollowupQueueState,
          buildSummaryPrompt
            { items := [], draining := true, lastEnqueuedAt := lastEnq
              mode := QueueMode.collect, debounceMs := db, cap := cap
              dropPolicy := dp, droppedCount := dc, summaryLines := sl
              lastRun := lr } =
            ((buildSummaryPrompt
              { items := x :: xs, draining := false
                lastEnqueuedAt := lastEnq, mode := QueueMode.collect
                debounceMs := db, cap := cap, dropPolicy := dp
                droppedCount := dc, summaryLines := sl, lastRun := lr }).1,
              q2) →
          q2.items = [] ∧ q2.droppedCount = 0 → True := fun _ _ _ => trivial
      clear hempty
      rcases Nat.eq_zero_or_pos dc with hdc0 | hdcpos
      · subst hdc0
        have hsum :
            buildSummaryPrompt
              { items := [], draining := true, lastEnqueuedAt := lastEnq
                mode := QueueMode.collect, debounceMs := db, cap := cap
                dropPolicy := dp, droppedCount := 0, summaryLines := sl
                lastRun := lr } =
            (Option.none,
              { items := [], draining := true, lastEnqueuedAt := lastEnq
                mode := QueueMode.collect, debounceMs := db, cap := cap
                dropPolicy := dp, droppedCount := 0, summaryLines := sl
                lastRun := lr }) := by
          simp [buildSummaryPrompt]
        have hsq : (buildSummaryPrompt
            { items := x :: xs, draining := false, lastEnqueuedAt := lastEnq
              mode := QueueMode.collect, debounceMs := db, cap := cap
              dropPolicy := dp, droppedCount := 0, summaryLines := sl
              lastRun := lr }).1 = Option.none := by
          simp [buildSummaryPrompt]
        simp [drainLoop, hcc, hlast, hsum, hsq, collectCall]
      · have hpol : dp = QueueDropPolicy.summarize := by
          rcases hdp with h | h
          · omega
          · exact h
        subst hpol
        have hdc' : (dc == 0) = false := by
          simp only [beq_eq_false_iff_ne]
          omega
        have hsum :
            buildSummaryPrompt
              { items := [], draining := true, lastEnqueuedAt := lastEnq
                mode := QueueMode.collect, debounceMs := db, cap := cap
                dropPolicy := QueueDropPolicy.summarize, droppedCount := dc
                summaryLines := sl, lastRun := lr } =
            ((buildSummaryPrompt
              { items := x :: xs, draining := false, lastEnqueuedAt := lastEnq
                mode := QueueMode.collect, debounceMs := db, cap := cap
                dropPolicy := QueueDropPolicy.summarize, droppedCount := dc
                summaryLines := sl, lastRun := lr }).1,
              { items := [], draining := true, lastEnqueuedAt := lastEnq
                mode := QueueMode.collect, debounceMs := db, cap := cap
                dropPolicy := QueueDropPolicy.summarize, droppedCount := 0
                summaryLines := [], lastRun := lr }) := by
          simp [buildSummaryPrompt, hdc']
        simp [drainLoop, hcc, hlast, hsum, hdc', collectCall]
  · -- the merged prompt contains summary then prompts, in order
    intro hclean
    have hrel := collect_blocks_rel q.items hclean 0
    rw [buildCollectPrompt_eq]
    cases hsp : (buildSummaryPrompt q).1 with
    | none =>
      simp only [Option.toList, List.nil_append, List.map_nil]
      exact inOrder_head_joinSep _ _ _ _ hrel
    | some s =>
      simp only [Option.toList, List.singleton_append, List.map_cons,
        List.map_nil, List.cons_append, List.nil_append]
      exact inOrder_head_joinSep _ _ _ _
        (List.Forall₂.cons ⟨[], by simp⟩ hrel)
  · -- cross-channel: one call per item
    intro hcc hdc hfuel
    obtain ⟨items, draining, lastEnq, mode, db, cap, dp, dc, sl, lr⟩ := q
    simp only at hdr hm hcc hdc hfuel ⊢
    subst hdr hm hdc
    cases items with
    | nil => simp [hasCrossChannelItems, hasCrossChannelItemsGo] at hcc
    | cons x xs =>
      obtain ⟨f, rfl⟩ : ∃ f, fuel = f + 1 :=
        ⟨fuel - 1, by omega⟩
      unfold scheduleFollowupDrain
      rw [hq]
      have hforced := drainLoop_collect_forced isRoutable now f
        { items := xs, draining := true, lastEnqueuedAt := lastEnq
          mode := QueueMode.collect, debounceMs := db, cap := cap
          dropPolicy := dp, droppedCount := 0, summaryLines := sl
          lastRun := lr } rfl rfl (by simpa using Nat.le_of_succ_le_succ hfuel)
      simp [drainLoop, hcc, hforced]

/-- Witness for C1 at the spec's concrete scenarios: three queued same-route
items ("A", "B", "C" to the same destination) drain as one merged call whose
prompt carries all three in order, and two queued items from different
routes drain as two separate calls in arrival order. -/
theorem collect_drain_merge_or_per_item_witness :
    scheduleFollowupDrain
        (fun c => c == Option.some "telegram" || c == Option.some "slack") 5
        100
        [("k",
          { items :=
              [{ prompt := "A", originatingChannel := Option.some "telegram"
                 originatingTo := Option.some "42" },
               { prompt := "B", originatingChannel := Option.some "telegram"
                 originatingTo := Option.some "42" },
               { prompt := "C", originatingChannel := Option.some "telegram"
                 originatingTo := Option.some "42" }]
            mode := QueueMode.collect })] "k" =
      Option.some
        ([collectCall
            [{ prompt := "A", originatingChannel := Option.some "telegram"
               originatingTo := Option.some "42" },
             { prompt := "B", originatingChannel := Option.some "telegram"
               originatingTo := Option.some "42" },
             { prompt := "C", originatingChannel := Option.some "telegram"
               originatingTo := Option.some "42" }]
            (buildSummaryPrompt
              { items :=
                  [{ prompt := "A", originatingChannel := Option.some "telegram"
                     originatingTo := Option.some "42" },
                   { prompt := "B", originatingChannel := Option.some "telegram"
                     originatingTo := Option.some "42" },
                   { prompt := "C", originatingChannel := Option.some "telegram"
                     originatingTo := Option.some "42" }]
                mode := QueueMode.collect }).1 {} 100],
          eraseA
            [("k",
              { items :=
                  [{ prompt := "A", originatingChannel := Option.some "telegram"
                     originatingTo := Option.some "42" },
                   { prompt := "B", originatingChannel := Option.some "telegram"
                     originatingTo := Option.some "42" },
                   { prompt := "C", originatingChannel := Option.some "telegram"
                     originatingTo := Option.some "42" }]
                mode := QueueMode.collect })] "k", false) ∧
    InOrder
      (buildCollectPrompt
        [{ prompt := "A", originatingChannel := Option.some "telegram"
           originatingTo := Option.some "42" },
         { prompt := "B", originatingChannel := Option.some "telegram"
           originatingTo := Option.some "42" },
         { prompt := "C", originatingChannel := Option.some "telegram"
           originatingTo := Option.some "42" }]
        (buildSummaryPrompt
          { items :=
              [{ prompt := "A", originatingChannel := Option.some "telegram"
                 originatingTo := Option.some "42" },
               { prompt := "B", originatingChannel := Option.some "telegram"
                 originatingTo := Option.some "42" },
               { prompt := "C", originatingChannel := Option.some "telegram"
                 originatingTo := Option.some "42" }]
            mode := QueueMode.collect }).1).data
      ["A".data, "B".data, "C".data] ∧
    scheduleFollowupDrain
        (fun c => c == Option.some "telegram" || c == Option.some "slack") 5
        100
        [("k2",
          { items :=
              [{ prompt := "A", originatingChannel := Option.some "telegram"
                 originatingTo := Option.some "42" },
               { prompt := "B", originatingChannel := Option.some "slack"
                 originatingTo := Option.some "7" }]
            mode := QueueMode.collect })] "k2" =
      Option.some
        ([{ prompt := "A", originatingChannel := Option.some "telegram"
            originatingTo := Option.some "42" },
          { prompt := "B", originatingChannel := Option.some "slack"
            originatingTo := Option.some "7" }],
          eraseA
            [("k2",
              { items :=
                  [{ prompt := "A", originatingChannel := Option.some "telegram"
                     originatingTo := Option.some "42" },
                   { prompt := "B", originatingChannel := Option.some "slack"
                     originatingTo := Option.some "7" }]
                mode := QueueMode.collect })] "k2", false) := by
  have h1 := collect_drain_merge_or_per_item
    (fun c => c == Option.some "telegram" || c == Option.some "slack") 5 100
    [("k",
      { items :=
          [{ prompt := "A", originatingChannel := Option.some "telegram"
             originatingTo := Option.some "42" },
           { prompt := "B", originatingChannel := Option.some "telegram"
             originatingTo := Option.some "42" },
           { prompt := "C", originatingChannel := Option.some "telegram"
             originatingTo := Option.some "42" }]
        mode := QueueMode.collect })] "k"
    { items :=
        [{ prompt := "A", originatingChannel := Option.some "telegram"
           originatingTo := Option.some "42" },
         { prompt := "B", originatingChannel := Option.some "telegram"
           originatingTo := Option.some "42" },
         { prompt := "C", originatingChannel := Option.some "telegram"
           originatingTo := Option.some "42" }]
      mode := QueueMode.collect } rfl rfl rfl
  have h2 := collect_drain_merge_or_per_item
    (fun c => c == Option.some "telegram" || c == Option.some "slack") 5 100
    [("k2",
      { items :=
          [{ prompt := "A", originatingChannel := Option.some "telegram"
             originatingTo := Option.some "42" },
           { prompt := "B", originatingChannel := Option.some "slack"
             originatingTo := Option.some "7" }]
        mode := QueueMode.collect })] "k2"
    { items :=
        [{ prompt := "A", originatingChannel := Option.some "telegram"
           originatingTo := Option.some "42" },
         { prompt := "B", originatingChannel := Option.some "slack"
           originatingTo := Option.some "7" }]
      mode := QueueMode.collect } rfl rfl rfl
  refine ⟨h1.1 _ (by decide) rfl (Or.inl rfl) (by omega), ?_,
    h2.2.2 (by decide) rfl (by decide)⟩
  have hord := h1.2.1 (by
    intro it hmem
    fin_cases hmem <;> exact ⟨rfl, by decide⟩)
  simpa using hord

end Spec2Proof
